import Mathlib

/-
Verification of the netsuite-auto-upload-files repository against its
specification.

The development shallowly embeds the two sides of the system:

* the server-side RESTlet (`src/netsuite-restlet/autoUploadRESTlet.js`):
  path sanitisation, folder lookup by SuiteQL join chain, folder creation,
  file lookup by (name, folder) and the `post` upsert handler.  The remote
  file cabinet is modelled as an explicit `Env` state; the try/catch blocks
  of the JavaScript are modelled by boolean failure flags on `Env`
  (`folderQueryFails`, `fileQueryFails`, `createFails`): a flag set to true
  means the corresponding NetSuite API call throws, and the embedding
  returns what the catch-handler of the source returns.

* the client-side VS Code extension (`src/vscode-extension/src/extension.js`):
  credential lookup (`getCredential`), the pure path resolver
  (`resolveUploadFile` / `calculateNetSuitePath`), the OAuth header
  construction of `makeAuthenticatedRequest`, and the debounce dispatcher
  (`debounceUpload` / `uploadFile`) as a small discrete-event simulator.

JavaScript strings are modelled as Lean `String` and all string operations
used by the source (`replace`, `split`, `trim`, `substring`, `indexOf`,
`startsWith`, `toLowerCase`, `join`) are implemented on the underlying
character lists so that every definition is executable and kernel-reducible.
-/

namespace AutoUpload

/-! ## Character-level string operations -/

/-- Boolean list prefix test (model of JS `String.prototype.startsWith`
at the character level). -/
def isPrefList : List Char → List Char → Bool
  | [], _ => true
  | _ :: _, [] => false
  | a :: as, b :: bs => a == b && isPrefList as bs

/-- JS `s.startsWith(pre)`. -/
def strStartsWith (s pre : String) : Bool :=
  isPrefList pre.data s.data

/-- JS `s.endsWith(suffixStr)`, via reversed prefix test. -/
def strEndsWith (s tail : String) : Bool :=
  isPrefList tail.data.reverse s.data.reverse

/-- JS `s.replace(/\\/g, '/')` on the character list. -/
def normSlashesList (cs : List Char) : List Char :=
  cs.map (fun c => if c = '\\' then '/' else c)

/-- JS `s.replace(/\\/g, '/')`. -/
def normSlashes (s : String) : String :=
  ⟨normSlashesList s.data⟩

/-- State machine for JS `s.replace(/\/+/g, '/')`: the boolean records
whether the previous emitted character was a slash. -/
def collapseAux : Bool → List Char → List Char
  | _, [] => []
  | prev, c :: rest =>
      if c = '/' then
        if prev then collapseAux true rest
        else '/' :: collapseAux true rest
      else c :: collapseAux false rest

/-- JS `s.replace(/\/+/g, '/')`: collapse runs of slashes to a single one. -/
def collapseSlashes (s : String) : String :=
  ⟨collapseAux false s.data⟩

/-- The `if (!s.startsWith('/')) s = '/' + s` idiom the source repeats. -/
def ensureLeadingSlash (s : String) : String :=
  if strStartsWith s "/" = true then s else "/" ++ s

/-- JS `s.substring(n)` (character-indexed). -/
def strDropChars (s : String) (n : Nat) : String :=
  ⟨s.data.drop n⟩

/-- No two consecutive `/` characters — the "contains no doubled
separators" postcondition of the Path Resolver contract. -/
def noDblSlash : List Char → Bool
  | [] => true
  | [_] => true
  | a :: b :: rest => !(a == '/' && b == '/') && noDblSlash (b :: rest)

/-- JS `s.toLowerCase()` (ASCII, character by character). -/
def strToLower (s : String) : String :=
  ⟨s.data.map Char.toLower⟩

/-- JS `s.trim()`. -/
def strTrim (s : String) : String :=
  ⟨((s.data.dropWhile Char.isWhitespace).reverse.dropWhile Char.isWhitespace).reverse⟩

/-- Raw split on a separator character; like JS `s.split(sep)` this keeps
empty segments. -/
def splitRawAux (sep : Char) : List Char → List Char → List String
  | [], acc => [⟨acc.reverse⟩]
  | c :: cs, acc =>
      if c = sep then ⟨acc.reverse⟩ :: splitRawAux sep cs []
      else splitRawAux sep cs (c :: acc)

/-- JS `s.split(sep)` on a character list. -/
def splitRaw (sep : Char) (cs : List Char) : List String :=
  splitRawAux sep cs []

/-- JS `parts.join('/')`. -/
def joinSlash : List String → String
  | [] => ""
  | [s] => s
  | s :: rest => s ++ "/" ++ joinSlash rest

/-- JS `haystack.indexOf(needle)` on character lists (`none` models `-1`). -/
def idxOfList (needle : List Char) : List Char → Option Nat
  | [] => if isPrefList needle [] then some 0 else none
  | c :: cs =>
      if isPrefList needle (c :: cs) then some 0
      else (idxOfList needle cs).map (fun i => i + 1)

/-- JS `s.toLowerCase().indexOf(pat)` with an already lower-case pattern
(case-insensitive search; `Char.toLower` preserves length, so the returned
index is valid for the original string as in the source). -/
def idxOfCI (s pat : String) : Option Nat :=
  idxOfList pat.data (strToLower s).data

/-- JS `s.includes(pat)`. -/
def containsSub (s pat : String) : Bool :=
  (idxOfList pat.data s.data).isSome

/-- Path segment extraction of `findFolderByPath` / `findOrCreateFolderPath`
(`autoUploadRESTlet.js` lines 456-460 and 526-529): backslashes are
normalised to slashes and the string is split on `/`, keeping only segments
that contain a non-whitespace character.  (The source's intermediate
`replace(/\/+/g,'/')` and stripping of leading/trailing slashes only remove
empty segments, which the final `filter(p => p && p.trim() !== '')` removes
as well, so they are absorbed into the filter here.) -/
def splitSegs (s : String) : List String :=
  (splitRaw '/' (normSlashesList s.data)).filter
    (fun seg => seg.data.any (fun c => !c.isWhitespace))

/-- The "skip SuiteScripts" step (`autoUploadRESTlet.js` lines 463-466 and
532-535): if the first segment lower-cases to `suitescripts` it is dropped,
because the walk already starts at the SuiteScripts root folder. -/
def skipRoot : List String → List String
  | [] => []
  | p :: rest => if strToLower p = "suitescripts" then rest else p :: rest

/-- JS `fileName.split('.').pop().toLowerCase()`. -/
def extOf (fileName : String) : String :=
  strToLower ((splitRaw '.' fileName.data).reverse.headD "")

/-- JS `s.replace(pat, rep)` with a plain-string pattern: replace only the
first occurrence. -/
def replaceFirstChars (pat rep : List Char) : List Char → List Char
  | [] => if pat.isEmpty then rep else []
  | c :: cs =>
      if isPrefList pat (c :: cs) then rep ++ (c :: cs).drop pat.length
      else c :: replaceFirstChars pat rep cs

/-- JS `s.replace(pat, rep)` on strings (first occurrence only). -/
def jsReplaceFirst (s pat rep : String) : String :=
  ⟨replaceFirstChars pat.data rep.data s.data⟩

/-! ## Server-side model: data and configuration

`autoUploadRESTlet.js` lines 25-34: the static `CONFIG` object. -/

structure RestletConfig where
  defaultRootFolder : Int
  allowedExtensions : List String
  maxFileSize : Nat
  debugMode : Bool

/-- The `CONFIG` constant of the RESTlet. -/
def CONFIG : RestletConfig :=
  { defaultRootFolder := -15
    allowedExtensions := []
    maxFileSize := 5 * 1024 * 1024
    debugMode := true }

/-- A folder record of the file cabinet (`MediaItemFolder` rows). -/
structure RemoteFolder where
  id : Int
  name : String
  parent : Int
deriving DecidableEq

/-- A file record of the file cabinet (`File` rows). -/
structure RemoteFile where
  id : Int
  name : String
  folderId : Int
  contents : String
deriving DecidableEq

/-- The remote file cabinet together with failure flags for the NetSuite
API calls the RESTlet wraps in try/catch.  `nextId` is the next internal id
the platform hands out on a create. -/
structure Env where
  folders : List RemoteFolder
  files : List RemoteFile
  nextId : Int
  folderQueryFails : Bool
  fileQueryFails : Bool
  createFails : Bool
deriving DecidableEq

/-- Result shape of `findFileByFullPath` (`autoUploadRESTlet.js` 431-437). -/
structure FoundFile where
  id : Int
  name : String
  folderId : Int
deriving DecidableEq

/-- The POST request context (payload fields the handler reads). -/
structure Ctx where
  path : String
  content : Option String
  folder : Option Int
deriving DecidableEq

/-- The POST response fields the claims are about (the source additionally
returns free-text messages, durations and the echoed path, which carry no
information beyond these fields). -/
structure PostResponse where
  success : Bool
  error : Option String
  fileId : Option Int
  action : Option String
deriving DecidableEq

/-! ## Server-side model: folder lookup -/

/-- All children of folder `cur` named `n` — one joined `MediaItemFolder`
level (`f.parent = cur AND f.name = ?`). -/
def childrenOf (folders : List RemoteFolder) (cur : Int) (n : String) : List Int :=
  (folders.filter (fun f => f.parent == cur && f.name == n)).map (fun f => f.id)

/-- One join step of the folder query on a whole frontier of candidates. -/
def stepFrontier (folders : List RemoteFolder) (n : String) : List Int → List Int
  | [] => []
  | c :: cs => childrenOf folders c n ++ stepFrontier folders n cs

/-- The dynamic-JOIN SuiteQL query of `findFolderByPath`
(`autoUploadRESTlet.js` 474-493): starting from a candidate set, each path
segment joins one more `MediaItemFolder` level; the result rows are the
final frontier. -/
def chainFrontier (folders : List RemoteFolder) : List Int → List String → List Int
  | cands, [] => cands
  | cands, n :: rest => chainFrontier folders (stepFrontier folders n cands) rest

/-- The `results[0].id` read of the folder query, applied to already
root-skipped segments: empty segments resolve to the root folder without
running a query; otherwise the single JOIN query runs (and throws — returns
`null` via the catch — when `folderQueryFails`). -/
def folderChainLookup (env : Env) : List String → Option Int
  | [] => some CONFIG.defaultRootFolder
  | p0 :: rest =>
      if env.folderQueryFails then none
      else (chainFrontier env.folders
              (childrenOf env.folders CONFIG.defaultRootFolder p0) rest).head?

/-- `findFolderByPath` on pre-split segments: skip a leading `SuiteScripts`
segment, then run the chain query. -/
def findFolderByPathParts (env : Env) (parts : List String) : Option Int :=
  folderChainLookup env (skipRoot parts)

/-- `findFolderByPath` (`autoUploadRESTlet.js` 450-514).  An empty path
returns the root folder id directly; otherwise the path is normalised,
split, root-skipped and resolved by the single JOIN query.  Any query error
is caught and yields `none` (the source returns `null`). -/
def findFolderByPath (env : Env) (folderPath : String) : Option Int :=
  if folderPath = "" then some CONFIG.defaultRootFolder
  else findFolderByPathParts env (splitSegs folderPath)

/-! ## Server-side model: file lookup and save -/

/-- The `WHERE name = ? AND folder = ?` SuiteQL lookup on `File`. -/
def findFileRec (files : List RemoteFile) (name : String) (folder : Int) :
    Option RemoteFile :=
  files.find? (fun g => g.name == name && g.folderId == folder)

/-- `findFileByFullPath` (`autoUploadRESTlet.js` 409-445): resolve the
folder, then look the file up by (name, folder).  Both a missing file and a
throwing query (the catch at 441-444) yield `none`. -/
def findFileByFullPath (env : Env) (folderPath fileName : String) :
    Option FoundFile :=
  match findFolderByPath env folderPath with
  | none => none
  | some folderId =>
      if env.fileQueryFails then none
      else
        match findFileRec env.files fileName folderId with
        | some f => some ⟨f.id, f.name, folderId⟩
        | none => none

/-- `file.create({... conflictResolution: OVERWRITE}).save()` — NetSuite
semantics: if a file with the same (name, folder) exists its contents are
replaced and its id is returned unchanged; otherwise a fresh id is
allocated.  (External platform behaviour, modelled as the source's header
comment and the spec describe it: overwrite preserves the file id.) -/
def fileSaveOverwrite (env : Env) (name : String) (folder : Int)
    (contents : String) : Int × Env :=
  match findFileRec env.files name folder with
  | some f =>
      let updated := env.files.map
        (fun g => if g.id == f.id then { g with contents := contents } else g)
      (f.id, { env with files := updated })
  | none =>
      (env.nextId,
       { env with
           files := env.files ++ [⟨env.nextId, name, folder, contents⟩],
           nextId := env.nextId + 1 })

/-- `file.create({...}).save()` without conflict resolution — a plain
create allocating a fresh id (external platform behaviour; the spec:
"If not found, perform a plain create, yielding a new identifier"). -/
def fileSaveCreate (env : Env) (name : String) (folder : Int)
    (contents : String) : Int × Env :=
  (env.nextId,
   { env with
       files := env.files ++ [⟨env.nextId, name, folder, contents⟩],
       nextId := env.nextId + 1 })

/-! ## Server-side model: folder creation -/

/-- The `foldersByParent[cur][name]` lookup of `findOrCreateFolderPath`
(`autoUploadRESTlet.js` 560-575): the JS object assignment lets the last
row win for duplicate (parent, name) pairs, hence the reversed head.
The map is built from the snapshot of folders taken by the `name IN (...)`
query; its restriction to names occurring in the path is vacuous because
only those names are ever looked up. -/
def lookupChildLast (folders : List RemoteFolder) (cur : Int) (n : String) :
    Option Int :=
  (childrenOf folders cur n).reverse.head?

/-- The create-as-needed walk of `findOrCreateFolderPath`
(`autoUploadRESTlet.js` 570-594).  Lookups run against the query-time
snapshot (freshly created ids are new, so they never have snapshot
children, exactly as in the source where created folders get an empty map
entry).  A create throws — `.error ()` — when `createFails` is set; the
first attempted create is then the first mutation, so the state is still
the entry state when the exception propagates to the catch. -/
def createLoop (snapshot : List RemoteFolder) :
    Env → Int → List String → Except Unit (Int × Env)
  | env, cur, [] => .ok (cur, env)
  | env, cur, n :: rest =>
      match lookupChildLast snapshot cur n with
      | some cid => createLoop snapshot env cid rest
      | none =>
          if env.createFails then .error ()
          else
            createLoop snapshot
              { env with
                  folders := env.folders ++ [⟨env.nextId, n, cur⟩],
                  nextId := env.nextId + 1 }
              env.nextId rest

/-- The try-block body of `findOrCreateFolderPath` on non-empty
root-skipped segments: first retry the full-path lookup (546: its own
try/catch makes a failing query look like "not found"), then run the
`name IN (...)` query (which throws when folder queries fail) and the
create-as-needed walk. -/
def findOrCreateBody (env : Env) (parts : List String) :
    Except Unit (Int × Env) :=
  match findFolderByPathParts env parts with
  | some fid => .ok (fid, env)
  | none =>
      if env.folderQueryFails then .error ()
      else createLoop env.folders env CONFIG.defaultRootFolder parts

/-- `findOrCreateFolderPath` (`autoUploadRESTlet.js` 519-604): empty paths
resolve to the root folder; any exception in the body is caught and the
root folder id is returned with the state unchanged (lines 596-603). -/
def findOrCreateFolderPath (env : Env) (folderPath : String) : Int × Env :=
  if folderPath = "" then (CONFIG.defaultRootFolder, env)
  else
    match skipRoot (splitSegs folderPath) with
    | [] => (CONFIG.defaultRootFolder, env)
    | p0 :: rest =>
        match findOrCreateBody env (p0 :: rest) with
        | .ok r => r
        | .error _ => (CONFIG.defaultRootFolder, env)

/-! ## Server-side model: request handling -/

/-- `sanitizePath` (`autoUploadRESTlet.js` 321-331). -/
def sanitizePath (filePath : String) : String :=
  ensureLeadingSlash (collapseSlashes (normSlashes (strTrim filePath)))

/-- `parseFilePath` (`autoUploadRESTlet.js` 336-347): strip leading
slashes, split on `/`, the last part is the file name, the rest re-joined
is the folder path.  Returns (fileName, folderPath). -/
def parseFilePath (filePath : String) : String × String :=
  let parts := splitRaw '/' (filePath.data.dropWhile (fun c => c = '/'))
  (parts.getLast?.getD "", joinSlash parts.dropLast)

/-- `validateRequest` (`autoUploadRESTlet.js` 279-316): `none` means valid,
`some e` is the error code of the rejection. -/
def validateRequest (ctx : Ctx) : Option String :=
  if ctx.path = "" then some "MISSING_PATH"
  else
    match ctx.content with
    | none => some "MISSING_CONTENT"
    | some c =>
        if c.data.length > CONFIG.maxFileSize then some "FILE_TOO_LARGE"
        else if containsSub ctx.path ".." = true then some "INVALID_PATH"
        else none

/-- The extension gate of `post` (`autoUploadRESTlet.js` 113-122); with the
shipped `CONFIG.allowedExtensions = []` it never rejects. -/
def extRejected (fileName : String) : Bool :=
  decide (CONFIG.allowedExtensions.length > 0) &&
    !(CONFIG.allowedExtensions.contains (extOf fileName))

/-- The upsert core of `post` (`autoUploadRESTlet.js` 112-204) after path
parsing: extension gate, file lookup, then either the OVERWRITE update
branch (132-161) or the create branch (163-186).  The file type table and
encoding selection of the source do not influence ids, actions or state
shape and are not modelled. -/
def postUpsert (ctx : Ctx) (env : Env) (fileName folderPath : String) :
    PostResponse × Env :=
  if extRejected fileName = true then
    ({ success := false, error := some "INVALID_EXTENSION",
       fileId := none, action := none }, env)
  else
    match findFileByFullPath env folderPath fileName with
    | some existing =>
        let r := fileSaveOverwrite env fileName existing.folderId
                   (ctx.content.getD "")
        ({ success := true, error := none, fileId := some r.1,
           action := some "update" }, r.2)
    | none =>
        let fr :=
          match ctx.folder with
          | some fid => (fid, env)
          | none => findOrCreateFolderPath env folderPath
        let r := fileSaveCreate fr.2 fileName fr.1 (ctx.content.getD "")
        ({ success := true, error := none, fileId := some r.1,
           action := some "create" }, r.2)

/-- `post` after validation: sanitise and parse the path, then upsert. -/
def postMain (ctx : Ctx) (env : Env) : PostResponse × Env :=
  postUpsert ctx env (parseFilePath (sanitizePath ctx.path)).1
    (parseFilePath (sanitizePath ctx.path)).2

/-- The `post` handler (`autoUploadRESTlet.js` 80-224): validate, then run
the upsert.  An invalid request is answered immediately with the error code
and the file cabinet untouched. -/
def post (ctx : Ctx) (env : Env) : PostResponse × Env :=
  match validateRequest ctx with
  | some err =>
      ({ success := false, error := some err, fileId := none, action := none },
       env)
  | none => postMain ctx env

/-! ## Client-side model: configuration lookup

`extension.js` 107-151 (`getCredential`): `.env` variables take precedence
over VS Code settings; empty strings are falsy and skipped; three settings
have defaults. -/

/-- Client configuration: the merged `.env` key/values and the VS Code
settings (string-valued).  A missing key is simply absent from the list. -/
structure Cfg where
  env : List (String × String)
  settings : List (String × String)
deriving DecidableEq

/-- Key/value lookup in an association list (JS object property read). -/
def envLookup (kvs : List (String × String)) (k : String) : Option String :=
  (kvs.find? (fun kv => kv.1 == k)).map (fun kv => kv.2)

/-- The `envKeyMap` table of `getCredential` (`extension.js` 109-120). -/
def envKeyMap (key : String) : List String :=
  if key = "restletUrl" then ["NS_RESTLET_URL", "NETSUITE_RESTLET_URL"]
  else if key = "accountId" then ["NS_ACCOUNT_ID", "NETSUITE_ACCOUNT_ID"]
  else if key = "oauth.consumerKey" then ["NS_CONSUMER_KEY", "NETSUITE_CONSUMER_KEY"]
  else if key = "oauth.consumerSecret" then ["NS_CONSUMER_SECRET", "NETSUITE_CONSUMER_SECRET"]
  else if key = "oauth.tokenId" then ["NS_TOKEN_ID", "NETSUITE_TOKEN_ID"]
  else if key = "oauth.tokenSecret" then ["NS_TOKEN_SECRET", "NETSUITE_TOKEN_SECRET"]
  else if key = "uploadFrom" then ["NS_UPLOAD_FROM", "NETSUITE_UPLOAD_FROM"]
  else if key = "watchFolder" then ["NS_WATCH_FOLDER", "NETSUITE_WATCH_FOLDER"]
  else if key = "rootPath" then ["NS_ROOT_PATH", "NETSUITE_ROOT_PATH"]
  else []

/-- The `defaults` table of `getCredential` (`extension.js` 123-127). -/
def defaultsFor (key : String) : Option String :=
  if key = "uploadFrom" then some "dist"
  else if key = "watchFolder" then some "src"
  else if key = "rootPath" then some "/SuiteScripts"
  else none

/-- First `.env` variable of the candidate list with a truthy (non-empty)
value (`extension.js` 133-139). -/
def firstTruthyEnv (cfg : Cfg) : List String → Option String
  | [] => none
  | k :: ks =>
      match envLookup cfg.env k with
      | some v => if v = "" then firstTruthyEnv cfg ks else some v
      | none => firstTruthyEnv cfg ks

/-- `getCredential` (`extension.js` 107-151): `.env` first, then settings,
then defaults.  A falsy setting value falls back to the default (for keys
without a default the source returns the falsy value itself, which this
model renders as `none` — downstream code only tests truthiness). -/
def getCredential (cfg : Cfg) (key : String) : Option String :=
  match firstTruthyEnv cfg (envKeyMap key) with
  | some v => some v
  | none =>
      match envLookup cfg.settings key with
      | some v => if v = "" then defaultsFor key else some v
      | none => defaultsFor key

/-! ## Client-side model: path resolution -/

/-- The result of `resolveUploadFile` (`extension.js` 185-225). -/
structure UploadTarget where
  uploadPath : String
  relativePath : String
  netSuitePath : String
  isMapped : Bool
deriving DecidableEq

/-- Stage 1 of `calculateNetSuitePath` (`extension.js` 243-251): normalise
separators and strip the upload-folder prefix. -/
def calcStage1 (uploadFrom relativePath : String) : String :=
  let np0 := normSlashes relativePath
  if strStartsWith np0 (uploadFrom ++ "/") = true then
    strDropChars np0 (uploadFrom.data.length + 1)
  else np0

/-- Stage 2 of `calculateNetSuitePath` (`extension.js` 253-256): strip a
`FileCabinet/` prefix. -/
def calcStage2 (s : String) : String :=
  if strStartsWith s "FileCabinet/" = true then
    strDropChars s ("FileCabinet/".data.length)
  else s

/-- `calculateNetSuitePath` (`extension.js` 241-304).  The upload-folder
and root-path settings are passed explicitly (the source obtains them from
`getCredential`).  After the two prefix strips: locate `suitescripts/`
case-insensitively and keep everything from there; otherwise (dead branch
in the source, kept for fidelity) check a lower-case prefix; otherwise fall
back to `rootPath + '/' + path`.  Every branch ensures a leading slash and
collapses doubled slashes. -/
def calculateNetSuitePath (uploadFrom rootPath relativePath : String) : String :=
  match idxOfCI (calcStage2 (calcStage1 uploadFrom relativePath)) "suitescripts/" with
  | some i =>
      collapseSlashes (ensureLeadingSlash
        (strDropChars (calcStage2 (calcStage1 uploadFrom relativePath)) i))
  | none =>
      if strStartsWith (strToLower (calcStage2 (calcStage1 uploadFrom relativePath)))
           "suitescripts/" = true then
        collapseSlashes ("/" ++ calcStage2 (calcStage1 uploadFrom relativePath))
      else
        collapseSlashes (ensureLeadingSlash (rootPath ++ "/" ++
          (if strStartsWith (calcStage2 (calcStage1 uploadFrom relativePath)) "/" = true
           then strDropChars (calcStage2 (calcStage1 uploadFrom relativePath)) 1
           else calcStage2 (calcStage1 uploadFrom relativePath))))

/-- `resolveUploadFile` (`extension.js` 185-225) with the configuration
passed explicitly and the saved file given by its workspace-relative path
(the source computes `relativePath = path.relative(ws, saved)`; the
absolute saved path is `wsPath + '/' + relativePath`). -/
def resolveUploadFile (wsPath relativePath watchFolder uploadFrom rootPath : String) :
    UploadTarget :=
  if uploadFrom = watchFolder then
    { uploadPath := wsPath ++ "/" ++ relativePath
      relativePath := relativePath
      netSuitePath := calculateNetSuitePath uploadFrom rootPath relativePath
      isMapped := false }
  else if strStartsWith relativePath (watchFolder ++ "/") = true then
    { uploadPath := wsPath ++ "/" ++
        (uploadFrom ++ "/" ++ strDropChars relativePath (watchFolder.data.length + 1))
      relativePath := uploadFrom ++ "/" ++ strDropChars relativePath (watchFolder.data.length + 1)
      netSuitePath := calculateNetSuitePath uploadFrom rootPath
        (uploadFrom ++ "/" ++ strDropChars relativePath (watchFolder.data.length + 1))
      isMapped := true }
  else
    { uploadPath := wsPath ++ "/" ++ relativePath
      relativePath := relativePath
      netSuitePath := calculateNetSuitePath uploadFrom rootPath relativePath
      isMapped := false }

/-! ## Client-side model: request signing

`extension.js` 697-755.  The `oauth-1.0a` library's `toHeader` produces
`"OAuth " + key="value" pairs` for the oauth parameters in sorted key
order (percent-encoding of the values is not modelled; the values are
carried verbatim); the timestamp, nonce and HMAC signature are inputs of
the model since they are fresh per request. -/

/-- The sorted `oauth_*` parameter rendering of `oauth-1.0a`'s `toHeader`
for signature method HMAC-SHA256. -/
def oauthParamString (ck ti ts nonce sig : String) : String :=
  "oauth_consumer_key=\"" ++ ck ++ "\", oauth_nonce=\"" ++ nonce ++
  "\", oauth_signature=\"" ++ sig ++
  "\", oauth_signature_method=\"HMAC-SHA256\", oauth_timestamp=\"" ++ ts ++
  "\", oauth_token=\"" ++ ti ++ "\", oauth_version=\"1.0\""

/-- `oauth.toHeader(...)`'s Authorization value. -/
def oauthToHeader (paramStr : String) : String :=
  "OAuth " ++ paramStr

/-- The realm-embedding step of `makeAuthenticatedRequest` (`extension.js`
736-739): `header.replace('OAuth ', 'OAuth realm="<accountId>",')`. -/
def buildAuthHeader (ck ti acc ts nonce sig : String) : String :=
  jsReplaceFirst (oauthToHeader (oauthParamString ck ti ts nonce sig))
    "OAuth " ("OAuth realm=\"" ++ acc ++ "\",")

/-- The error message thrown at `extension.js` 709. -/
def configErrMsg : String :=
  "OAuth credentials not configured. Add them to .env file or run Configure command."

/-- JS truthiness of a credential lookup result. -/
def credTruthy : Option String → Bool
  | none => false
  | some v => v ≠ ""

/-- The signed request `makeAuthenticatedRequest` is about to issue:
everything that is fixed before any byte goes on the wire. -/
structure SignedRequest where
  authHeader : String
  headers : List (String × String)
  url : String
  method : String
deriving DecidableEq

/-- `makeAuthenticatedRequest` (`extension.js` 697-755) up to the point of
issuing the HTTPS request: fetch the five credentials, throw the
configuration error if any is missing (before any signing or network
activity), otherwise build the signed request descriptor.  `.error`
therefore means no request was constructed or sent. -/
def makeAuthenticatedRequest (cfg : Cfg) (url method ts nonce sig : String) :
    Except String SignedRequest :=
  if credTruthy (getCredential cfg "oauth.consumerKey")
      && credTruthy (getCredential cfg "oauth.consumerSecret")
      && credTruthy (getCredential cfg "oauth.tokenId")
      && credTruthy (getCredential cfg "oauth.tokenSecret")
      && credTruthy (getCredential cfg "accountId") then
    .ok { authHeader := buildAuthHeader
            ((getCredential cfg "oauth.consumerKey").getD "")
            ((getCredential cfg "oauth.tokenId").getD "")
            ((getCredential cfg "accountId").getD "") ts nonce sig
          headers :=
            [("Authorization",
              buildAuthHeader ((getCredential cfg "oauth.consumerKey").getD "")
                ((getCredential cfg "oauth.tokenId").getD "")
                ((getCredential cfg "accountId").getD "") ts nonce sig),
             ("Content-Type", "application/json"),
             ("Accept", "application/json")]
          url := url
          method := method }
  else .error configErrMsg

/-! ## Client-side model: debounce dispatcher

`extension.js` 532-549 (`debounceUpload`) and 554-692 (`uploadFile`):
discrete-event simulation.  Save events `(time, path)` are processed in
chronological order.  A pending timer is a `(path, fireTime)` pair; a new
save for a path cancels its pending (not yet fired) timer and arms a new
one at `time + delay` (`clearTimeout` / `setTimeout`).  A timer whose fire
time has passed has already fired and started an upload attempt — firing
removed it from the map (`debounceTimers.delete`), so it can no longer be
cancelled.  The output lists the upload attempts as `(path, startTime)`. -/

/-- Process save events against the pending-timer map, emitting upload
attempts in chronological order. -/
def runSaves (delay : Nat) : List (Nat × String) → List (String × Nat) → List (String × Nat)
  | [], timers => timers
  | (t, q) :: rest, timers =>
      (timers.filter (fun tm => decide (tm.2 ≤ t))) ++
        runSaves delay rest
          (((timers.filter (fun tm => decide (t < tm.2))).filter
              (fun tm => tm.1 != q)) ++ [(q, t + delay)])

/-- The upload attempts produced by a chronological list of save events. -/
def uploadsOf (delay : Nat) (saves : List (Nat × String)) : List (String × Nat) :=
  runSaves delay saves []

/-- `withinWindow delay prev ts`: every save time in `ts` is chronological
and arrives strictly before the previously armed timer fires. -/
def withinWindow (delay : Nat) : Nat → List Nat → Bool
  | _, [] => true
  | prev, t :: ts => decide (prev ≤ t) && decide (t < prev + delay) && withinWindow delay t ts

/-- The last save time of a burst. -/
def lastOf : Nat → List Nat → Nat
  | t, [] => t
  | _, u :: us => lastOf u us

/-- Two upload attempts for the same path whose occupancy intervals
`[start, start + dur)` intersect: overlapping in-flight uploads. -/
def hasOverlap (dur : Nat) : List (String × Nat) → Bool
  | [] => false
  | u :: rest =>
      rest.any (fun v => v.1 == u.1 && decide (v.2 < u.2 + dur) && decide (u.2 < v.2 + dur))
        || hasOverlap dur rest

/-! ## Concrete fixtures used by witnesses -/

/-- A small healthy file cabinet: one folder `app` under the root holding
one file `x.js`. -/
def envC1 : Env :=
  { folders := [⟨100, "app", -15⟩]
    files := [⟨500, "x.js", 100, "old"⟩]
    nextId := 1000
    folderQueryFails := false
    fileQueryFails := false
    createFails := false }

/-- The same cabinet with the file-lookup query throwing. -/
def envQF : Env :=
  { envC1 with fileQueryFails := true }

/-- The same cabinet with folder queries throwing. -/
def envFolderQF : Env :=
  { envC1 with folderQueryFails := true }

/-- The same cabinet with folder creation throwing. -/
def envCreateFail : Env :=
  { envC1 with createFails := true }

/-- A POST upload of new content to the existing path. -/
def ctxC1 : Ctx :=
  { path := "/SuiteScripts/app/x.js", content := some "new content", folder := none }

/-- A `.env` configuration with all five credentials present. -/
def cfgFull : Cfg :=
  { env := [("NS_CONSUMER_KEY", "ck1"), ("NS_CONSUMER_SECRET", "cs1"),
            ("NS_TOKEN_ID", "ti1"), ("NS_TOKEN_SECRET", "ts1"),
            ("NS_ACCOUNT_ID", "123")]
    settings := [] }

/-- A `.env` configuration missing four of the five credentials. -/
def cfgMissing : Cfg :=
  { env := [("NS_CONSUMER_KEY", "ck1")], settings := [] }

/-- Content of exactly the maximum allowed size. -/
def maxContent : String := ⟨List.replicate CONFIG.maxFileSize 'a'⟩

/-- Content one byte over the maximum allowed size. -/
def overContent : String := ⟨List.replicate (CONFIG.maxFileSize + 1) 'a'⟩

/-! ## Helper lemmas: strings -/

theorem strData_append (a b : String) : (a ++ b).data = a.data ++ b.data := by
  cases a; cases b; rfl

theorem isPrefList_self_append (l m : List Char) : isPrefList l (l ++ m) = true := by
  induction l with
  | nil => rfl
  | cons a as ih => simp [isPrefList, ih]

theorem drop_len_append (l m : List Char) : (l ++ m).drop l.length = m := by
  induction l with
  | nil => rfl
  | cons a as ih => simp [ih]

theorem strEndsWith_append (a b : String) : strEndsWith (a ++ b) b = true := by
  unfold strEndsWith
  rw [strData_append, List.reverse_append]
  exact isPrefList_self_append _ _

theorem head_of_startsWith_slash (s : String) (h : strStartsWith s "/" = true) :
    s.data.head? = some '/' := by
  have h' : isPrefList ['/'] s.data = true := h
  cases hd : s.data with
  | nil => rw [hd] at h'; exact absurd h' (by decide)
  | cons c cs =>
      rw [hd] at h'
      simp only [isPrefList, Bool.and_eq_true, beq_iff_eq] at h'
      obtain ⟨h1, -⟩ := h'
      simp [← h1]

theorem ensureLeadingSlash_head (s : String) :
    (ensureLeadingSlash s).data.head? = some '/' := by
  unfold ensureLeadingSlash
  split
  · exact head_of_startsWith_slash s (by assumption)
  · rw [strData_append]; rfl

/-! ## Helper lemmas: slash collapsing -/

theorem collapseAux_props (l : List Char) :
    noDblSlash (collapseAux true l) = true ∧ noDblSlash (collapseAux false l) = true ∧
      ∀ c cs, collapseAux true l = c :: cs → c ≠ '/' := by
  induction l with
  | nil =>
      refine ⟨rfl, rfl, fun c cs h => ?_⟩
      simp [collapseAux] at h
  | cons a t ih =>
      obtain ⟨ih1, ih2, ih3⟩ := ih
      by_cases ha : a = '/'
      · subst ha
        have e1 : collapseAux true ('/' :: t) = collapseAux true t := by
          simp [collapseAux]
        have e2 : collapseAux false ('/' :: t) = '/' :: collapseAux true t := by
          simp [collapseAux]
        refine ⟨e1 ▸ ih1, ?_, fun c cs h => ih3 c cs (e1 ▸ h)⟩
        rw [e2]
        cases hx : collapseAux true t with
        | nil => rfl
        | cons c cs =>
            have hc : c ≠ '/' := ih3 c cs hx
            have hn : noDblSlash (c :: cs) = true := hx ▸ ih1
            simp [noDblSlash, hc, hn]
      · have e1 : collapseAux true (a :: t) = a :: collapseAux false t := by
          simp [collapseAux, ha]
        have e2 : collapseAux false (a :: t) = a :: collapseAux false t := by
          simp [collapseAux, ha]
        have hcons : noDblSlash (a :: collapseAux false t) = true := by
          cases hx : collapseAux false t with
          | nil => rfl
          | cons c cs =>
              have hn : noDblSlash (c :: cs) = true := hx ▸ ih2
              simp [noDblSlash, ha, hn]
        exact ⟨e1 ▸ hcons, e2 ▸ hcons, fun c cs h => by
          rw [e1] at h
          cases h
          exact ha⟩

theorem collapse_props (s : String) (h : s.data.head? = some '/') :
    (collapseSlashes s).data.head? = some '/' ∧
      noDblSlash (collapseSlashes s).data = true := by
  obtain ⟨r, hr⟩ : ∃ r, s.data = '/' :: r := by
    cases hd : s.data with
    | nil => rw [hd] at h; cases h
    | cons c cs =>
        rw [hd] at h
        simp only [List.head?_cons, Option.some.injEq] at h
        exact ⟨cs, by rw [h]⟩
  unfold collapseSlashes
  rw [hr]
  have e : collapseAux false ('/' :: r) = '/' :: collapseAux true r := by
    simp [collapseAux]
  rw [e]
  refine ⟨rfl, ?_⟩
  obtain ⟨h1, _, h3⟩ := collapseAux_props r
  cases hx : collapseAux true r with
  | nil => rfl
  | cons c cs =>
      have hc : c ≠ '/' := h3 c cs hx
      have hn : noDblSlash (c :: cs) = true := hx ▸ h1
      simp [noDblSlash, hc, hn]

/-- Every branch of `calculateNetSuitePath` returns a slash-collapse of a
string that already starts with `/`. -/
theorem calcNS_shape (uploadFrom rootPath relativePath : String) :
    ∃ s : String, calculateNetSuitePath uploadFrom rootPath relativePath =
      collapseSlashes s ∧ s.data.head? = some '/' := by
  unfold calculateNetSuitePath
  split
  · exact ⟨_, rfl, ensureLeadingSlash_head _⟩
  · split
    · refine ⟨"/" ++ calcStage2 (calcStage1 uploadFrom relativePath), rfl, ?_⟩
      rw [strData_append]; rfl
    · exact ⟨_, rfl, ensureLeadingSlash_head _⟩

/-! ## Claim C4 and C5 -/

/-- C4: resolving the saved path `src/FileCabinet/SuiteScripts/a/b.js`
with watch folder `src`, upload folder `dist` and root remote path
`/SuiteScripts` yields a physical upload path ending in
`dist/FileCabinet/SuiteScripts/a/b.js`, marks the result as remapped, and
yields the logical remote path exactly `/SuiteScripts/a/b.js`. -/
theorem C4_path_remap_correctness (ws : String) :
    strEndsWith (resolveUploadFile ws "src/FileCabinet/SuiteScripts/a/b.js"
        "src" "dist" "/SuiteScripts").uploadPath
        "dist/FileCabinet/SuiteScripts/a/b.js" = true ∧
    (resolveUploadFile ws "src/FileCabinet/SuiteScripts/a/b.js"
        "src" "dist" "/SuiteScripts").isMapped = true ∧
    (resolveUploadFile ws "src/FileCabinet/SuiteScripts/a/b.js"
        "src" "dist" "/SuiteScripts").netSuitePath = "/SuiteScripts/a/b.js" := by
  have hbr : resolveUploadFile ws "src/FileCabinet/SuiteScripts/a/b.js"
      "src" "dist" "/SuiteScripts" =
      { uploadPath := ws ++ "/" ++
          ("dist" ++ "/" ++ strDropChars "src/FileCabinet/SuiteScripts/a/b.js"
            ("src".data.length + 1))
        relativePath := "dist" ++ "/" ++ strDropChars "src/FileCabinet/SuiteScripts/a/b.js"
            ("src".data.length + 1)
        netSuitePath := calculateNetSuitePath "dist" "/SuiteScripts"
          ("dist" ++ "/" ++ strDropChars "src/FileCabinet/SuiteScripts/a/b.js"
            ("src".data.length + 1))
        isMapped := true } := by
    unfold resolveUploadFile
    rw [if_neg (by decide), if_pos (by decide)]
  have hlit : ("dist" ++ "/" ++ strDropChars "src/FileCabinet/SuiteScripts/a/b.js"
      ("src".data.length + 1) : String) = "dist/FileCabinet/SuiteScripts/a/b.js" := by decide
  rw [hbr]
  refine ⟨?_, rfl, ?_⟩
  · show strEndsWith ((ws ++ "/") ++
        ("dist" ++ "/" ++ strDropChars "src/FileCabinet/SuiteScripts/a/b.js"
          ("src".data.length + 1))) "dist/FileCabinet/SuiteScripts/a/b.js" = true
    rw [hlit]
    exact strEndsWith_append (ws ++ "/") _
  · show calculateNetSuitePath "dist" "/SuiteScripts"
        ("dist" ++ "/" ++ strDropChars "src/FileCabinet/SuiteScripts/a/b.js"
          ("src".data.length + 1)) = "/SuiteScripts/a/b.js"
    rw [hlit]
    decide

/-- C5: for every upload-folder setting, root-path setting and relative
path, the computed logical remote path starts with `/`, its characters
contain no two consecutive separators (hence it starts with exactly one
`/`), and the resolver is a pure function: evaluating it twice on the same
inputs yields the same output.  The embedding takes the configuration as
explicit arguments, so the entire computation is I/O-free by construction. -/
theorem C5_resolver_postcondition_purity (uploadFrom rootPath relativePath : String) :
    (calculateNetSuitePath uploadFrom rootPath relativePath).data.head? = some '/' ∧
    noDblSlash (calculateNetSuitePath uploadFrom rootPath relativePath).data = true ∧
    calculateNetSuitePath uploadFrom rootPath relativePath =
      calculateNetSuitePath uploadFrom rootPath relativePath := by
  obtain ⟨s, hs, hh⟩ := calcNS_shape uploadFrom rootPath relativePath
  rw [hs]
  obtain ⟨h1, h2⟩ := collapse_props s hh
  exact ⟨h1, h2, rfl⟩

/-! ## Helper lemmas: the `post` handler -/

theorem extRejected_false (fn : String) : extRejected fn = false := rfl

theorem post_of_valid (ctx : Ctx) (env : Env) (hv : validateRequest ctx = none) :
    post ctx env = postMain ctx env := by
  unfold post
  rw [hv]

theorem post_of_invalid (ctx : Ctx) (env : Env) (e : String)
    (hv : validateRequest ctx = some e) :
    post ctx env =
      ({ success := false, error := some e, fileId := none, action := none }, env) := by
  unfold post
  rw [hv]

theorem postUpsert_update (ctx : Ctx) (env : Env) (fn fp : String) (ff : FoundFile)
    (h : findFileByFullPath env fp fn = some ff) :
    postUpsert ctx env fn fp =
      ({ success := true, error := none,
         fileId := some (fileSaveOverwrite env fn ff.folderId (ctx.content.getD "")).1,
         action := some "update" },
       (fileSaveOverwrite env fn ff.folderId (ctx.content.getD "")).2) := by
  unfold postUpsert
  rw [extRejected_false, h]
  rfl

theorem postUpsert_create (ctx : Ctx) (env : Env) (fn fp : String)
    (h : findFileByFullPath env fp fn = none) (hfc : ctx.folder = none) :
    postUpsert ctx env fn fp =
      ({ success := true, error := none,
         fileId := some (fileSaveCreate (findOrCreateFolderPath env fp).2 fn
            (findOrCreateFolderPath env fp).1 (ctx.content.getD "")).1,
         action := some "create" },
       (fileSaveCreate (findOrCreateFolderPath env fp).2 fn
          (findOrCreateFolderPath env fp).1 (ctx.content.getD "")).2) := by
  unfold postUpsert
  rw [extRejected_false, h, hfc]
  rfl

/-! ## Claim C3 -/

/-- C3: for every folder path whose first segment equals the watch root's
own name compared case-insensitively (it lower-cases to `suitescripts`),
`findFolderByPath` skips that segment and resolves the remaining segments
starting from the fixed root folder id (`folderChainLookup` walks the chain
query from `CONFIG.defaultRootFolder` and never consults a child folder
named "SuiteScripts"); if the path is empty after skipping,
`folderChainLookup env [] = some CONFIG.defaultRootFolder` is the root
folder id. -/
theorem C3_watch_root_skip (env : Env) (path s : String) (rest : List String)
    (hne : path ≠ "")
    (hsplit : splitSegs path = s :: rest)
    (hs : strToLower s = "suitescripts") :
    findFolderByPath env path = folderChainLookup env rest := by
  unfold findFolderByPath
  rw [if_neg hne, hsplit]
  unfold findFolderByPathParts
  rw [show skipRoot (s :: rest) = rest from by simp [skipRoot, hs]]

/-- C3 witness: `/SuiteScripts/app` resolves to folder 100 in a cabinet
that has a child `app` under the root but no folder named `SuiteScripts`. -/
theorem C3_watch_root_skip_witness :
    findFolderByPath envC1 "/SuiteScripts/app" = some 100 := by
  rw [C3_watch_root_skip envC1 "/SuiteScripts/app" "SuiteScripts" ["app"]
    (by decide) (by decide) (by decide)]
  decide

/-! ## Claim C1 -/

/-- C1: for every POST upload whose path resolves via `findFileByFullPath`
to an existing remote file with id `X`, the `post` handler takes the update
branch (an OVERWRITE `file.create` into the found folder under the same
name) and the returned `fileId` equals `X` — uploading to an existing path
never yields a new identifier. -/
theorem C1_identity_preserving_upsert (ctx : Ctx) (env : Env) (X : Int)
    (nm : String) (fid : Int)
    (hv : validateRequest ctx = none)
    (hfound : findFileByFullPath env (parseFilePath (sanitizePath ctx.path)).2
        (parseFilePath (sanitizePath ctx.path)).1 = some ⟨X, nm, fid⟩) :
    (post ctx env).1.success = true ∧ (post ctx env).1.action = some "update" ∧
      (post ctx env).1.fileId = some X := by
  have h0 := hfound
  unfold findFileByFullPath at h0
  cases hcase : findFolderByPath env (parseFilePath (sanitizePath ctx.path)).2 with
  | none => rw [hcase] at h0; cases h0
  | some fid0 =>
      rw [hcase] at h0
      cases hqf : env.fileQueryFails with
      | true => rw [hqf] at h0; simp at h0
      | false =>
          rw [hqf] at h0
          simp only [Bool.false_eq_true, if_false] at h0
          cases hrec : findFileRec env.files (parseFilePath (sanitizePath ctx.path)).1 fid0 with
          | none => rw [hrec] at h0; cases h0
          | some f =>
              rw [hrec] at h0
              simp only [Option.some.injEq, FoundFile.mk.injEq] at h0
              obtain ⟨hid, -, hfid⟩ := h0
              rw [post_of_valid ctx env hv]
              unfold postMain
              rw [postUpsert_update ctx env _ _ _ hfound]
              refine ⟨rfl, rfl, ?_⟩
              show some (fileSaveOverwrite env (parseFilePath (sanitizePath ctx.path)).1
                  fid (ctx.content.getD "")).1 = some X
              unfold fileSaveOverwrite
              rw [← hfid, hrec]
              simpa using hid

/-- C1 witness: uploading new content to `/SuiteScripts/app/x.js`, whose
existing remote file has id 500, answers with action `update` and file id
500. -/
theorem C1_identity_preserving_upsert_witness :
    (post ctxC1 envC1).1.action = some "update" ∧
      (post ctxC1 envC1).1.fileId = some 500 := by
  have h := C1_identity_preserving_upsert ctxC1 envC1 500 "x.js" 100
    (by decide) (by decide)
  exact ⟨h.2.1, h.2.2⟩

/-! ## Claim C6 -/

/-- C6: content of exactly `CONFIG.maxFileSize` characters passes
validation; content of `maxFileSize + 1` characters is rejected with the
`FILE_TOO_LARGE` error, and the rejection happens before any remote
file-store operation: the handler answers identically for every cabinet
state and leaves the cabinet untouched ("before any network call" of the
store). -/
theorem C6_size_boundary (p c : String)
    (hp : p ≠ "") (hdots : containsSub p ".." = false) :
    (c.data.length = CONFIG.maxFileSize →
      validateRequest ⟨p, some c, none⟩ = none) ∧
    (c.data.length = CONFIG.maxFileSize + 1 →
      validateRequest ⟨p, some c, none⟩ = some "FILE_TOO_LARGE" ∧
      ∀ env : Env, post ⟨p, some c, none⟩ env =
        ({ success := false, error := some "FILE_TOO_LARGE",
           fileId := none, action := none }, env)) := by
  constructor
  · intro hlen
    unfold validateRequest
    rw [if_neg hp]
    show (if c.data.length > CONFIG.maxFileSize then some "FILE_TOO_LARGE"
      else if containsSub p ".." = true then some "INVALID_PATH" else none) = none
    rw [hlen, if_neg (lt_irrefl CONFIG.maxFileSize), hdots]
    simp
  · intro hlen
    have hval : validateRequest ⟨p, some c, none⟩ = some "FILE_TOO_LARGE" := by
      unfold validateRequest
      rw [if_neg hp]
      show (if c.data.length > CONFIG.maxFileSize then some "FILE_TOO_LARGE"
        else if containsSub p ".." = true then some "INVALID_PATH" else none) =
        some "FILE_TOO_LARGE"
      rw [hlen, if_pos (Nat.lt_succ_self CONFIG.maxFileSize)]
    exact ⟨hval, fun env => post_of_invalid _ env _ hval⟩

/-- C6 witness: a 5 MiB content is accepted, a 5 MiB + 1 content is
rejected as `FILE_TOO_LARGE`. -/
theorem C6_size_boundary_witness :
    validateRequest ⟨"/a.js", some maxContent, none⟩ = none ∧
    validateRequest ⟨"/a.js", some overContent, none⟩ = some "FILE_TOO_LARGE" := by
  have hA : maxContent.data.length = CONFIG.maxFileSize := by
    simp [maxContent]
  have hB : overContent.data.length = CONFIG.maxFileSize + 1 := by
    simp [overContent]
  exact ⟨(C6_size_boundary "/a.js" maxContent (by decide) (by decide)).1 hA,
    ((C6_size_boundary "/a.js" overContent (by decide) (by decide)).2 hB).1⟩

/-! ## Claim C7 -/

/-- C7: if any of the five required secrets (account id, consumer key,
consumer secret, token id, token secret) is absent (missing or empty),
`makeAuthenticatedRequest` fails with the configuration error — the
`Except.error` is produced before any request descriptor exists, so no
network call can have been attempted and the failure cannot be a remote
401; conversely, when all five are present the signed request is built and
the call proceeds. -/
theorem C7_missing_credentials (cfg : Cfg) (url method ts nonce sig : String) :
    ((credTruthy (getCredential cfg "oauth.consumerKey")
        && credTruthy (getCredential cfg "oauth.consumerSecret")
        && credTruthy (getCredential cfg "oauth.tokenId")
        && credTruthy (getCredential cfg "oauth.tokenSecret")
        && credTruthy (getCredential cfg "accountId")) = false →
      makeAuthenticatedRequest cfg url method ts nonce sig = .error configErrMsg) ∧
    ((credTruthy (getCredential cfg "oauth.consumerKey")
        && credTruthy (getCredential cfg "oauth.consumerSecret")
        && credTruthy (getCredential cfg "oauth.tokenId")
        && credTruthy (getCredential cfg "oauth.tokenSecret")
        && credTruthy (getCredential cfg "accountId")) = true →
      ∃ r : SignedRequest,
        makeAuthenticatedRequest cfg url method ts nonce sig = .ok r) := by
  constructor
  · intro h
    unfold makeAuthenticatedRequest
    rw [if_neg (by rw [h]; exact Bool.false_ne_true)]
  · intro h
    unfold makeAuthenticatedRequest
    rw [if_pos h]
    exact ⟨_, rfl⟩

/-- C7 witness: a configuration missing four secrets fails with the
configuration error; the full configuration produces a signed request. -/
theorem C7_missing_credentials_witness :
    makeAuthenticatedRequest cfgMissing "https://x" "POST" "111" "222" "SIG" =
      .error configErrMsg ∧
    ∃ r : SignedRequest,
      makeAuthenticatedRequest cfgFull "https://x" "POST" "111" "222" "SIG" = .ok r :=
  ⟨(C7_missing_credentials cfgMissing "https://x" "POST" "111" "222" "SIG").1 (by decide),
   (C7_missing_credentials cfgFull "https://x" "POST" "111" "222" "SIG").2 (by decide)⟩

/-! ## Claim C8 -/

theorem replaceFirst_concat (pat rep rest : List Char) (hne : pat ≠ []) :
    replaceFirstChars pat rep (pat ++ rest) = rep ++ rest := by
  cases pat with
  | nil => exact absurd rfl hne
  | cons a as =>
      rw [List.cons_append]
      unfold replaceFirstChars
      rw [if_pos (by rw [← List.cons_append]; exact isPrefList_self_append _ _)]
      congr 1
      show (a :: (as ++ rest)).drop (as.length + 1) = rest
      rw [List.drop_succ_cons]
      exact drop_len_append as rest

theorem jsReplaceFirst_oauth (ps rep : String) :
    jsReplaceFirst ("OAuth " ++ ps) "OAuth " rep = rep ++ ps := by
  unfold jsReplaceFirst
  have h : replaceFirstChars "OAuth ".data rep.data (("OAuth " ++ ps).data) =
      (rep ++ ps).data := by
    rw [strData_append, strData_append]
    exact replaceFirst_concat "OAuth ".data rep.data ps.data (by decide)
  rw [h]

theorem buildAuthHeader_realm (ck ti acc ts nonce sig : String) :
    buildAuthHeader ck ti acc ts nonce sig =
      "OAuth realm=\"" ++ acc ++ "\"," ++ oauthParamString ck ti ts nonce sig :=
  jsReplaceFirst_oauth (oauthParamString ck ti ts nonce sig)
    ("OAuth realm=\"" ++ acc ++ "\",")

/-- C8: every signed request's Authorization header value embeds the
account id inside the OAuth value itself, in the form
`OAuth realm="<accountId>",` followed by the `oauth_*` parameters
(consumer key, token, signature method HMAC-SHA256, timestamp, nonce,
signature — see `oauthParamString`); the header list carries the realm
only inside the single Authorization value, never as a separate header or
parameter. -/
theorem C8_realm_embedding (cfg : Cfg) (url method ts nonce sig ck cs ti tsec acc : String)
    (h1 : getCredential cfg "oauth.consumerKey" = some ck) (h1' : ck ≠ "")
    (h2 : getCredential cfg "oauth.consumerSecret" = some cs) (h2' : cs ≠ "")
    (h3 : getCredential cfg "oauth.tokenId" = some ti) (h3' : ti ≠ "")
    (h4 : getCredential cfg "oauth.tokenSecret" = some tsec) (h4' : tsec ≠ "")
    (h5 : getCredential cfg "accountId" = some acc) (h5' : acc ≠ "") :
    makeAuthenticatedRequest cfg url method ts nonce sig =
      .ok { authHeader :=
              "OAuth realm=\"" ++ acc ++ "\"," ++ oauthParamString ck ti ts nonce sig
            headers :=
              [("Authorization",
                "OAuth realm=\"" ++ acc ++ "\"," ++ oauthParamString ck ti ts nonce sig),
               ("Content-Type", "application/json"),
               ("Accept", "application/json")]
            url := url
            method := method } := by
  unfold makeAuthenticatedRequest
  rw [h1, h2, h3, h4, h5]
  rw [if_pos (by simp [credTruthy, h1', h2', h3', h4', h5'])]
  simp only [Option.getD_some]
  rw [buildAuthHeader_realm]

/-- C8 witness: the concrete full configuration produces exactly the
realm-embedded header. -/
theorem C8_realm_embedding_witness :
    makeAuthenticatedRequest cfgFull "https://x" "POST" "111" "222" "SIG" =
      .ok { authHeader :=
              "OAuth realm=\"" ++ "123" ++ "\"," ++ oauthParamString "ck1" "ti1" "111" "222" "SIG"
            headers :=
              [("Authorization",
                "OAuth realm=\"" ++ "123" ++ "\"," ++ oauthParamString "ck1" "ti1" "111" "222" "SIG"),
               ("Content-Type", "application/json"),
               ("Accept", "application/json")]
            url := "https://x"
            method := "POST" } :=
  C8_realm_embedding cfgFull "https://x" "POST" "111" "222" "SIG"
    "ck1" "cs1" "ti1" "ts1" "123"
    (by decide) (by decide) (by decide) (by decide) (by decide)
    (by decide) (by decide) (by decide) (by decide) (by decide)

/-! ## Helper lemmas: folder creation -/

theorem headNone_nil {α : Type} (l : List α) (h : l.head? = none) : l = [] := by
  cases l with
  | nil => rfl
  | cons c cs => cases h

theorem revHead_mem {α : Type} (l : List α) (x : α) (h : l.reverse.head? = some x) :
    x ∈ l := by
  rw [← List.mem_reverse]
  cases hd : l.reverse with
  | nil => rw [hd] at h; cases h
  | cons c cs =>
      rw [hd] at h
      simp only [List.head?_cons, Option.some.injEq] at h
      rw [← h]
      exact List.mem_cons_self c cs

theorem mem_stepFrontier (folders : List RemoteFolder) (n : String) :
    ∀ (cands : List Int) (cur x : Int), cur ∈ cands →
      x ∈ childrenOf folders cur n → x ∈ stepFrontier folders n cands := by
  intro cands
  induction cands with
  | nil => intro cur x h _; cases h
  | cons c cs ih =>
      intro cur x hcur hx
      rcases List.mem_cons.mp hcur with h | h
      · subst h
        exact List.mem_append_left _ hx
      · exact List.mem_append_right _ (ih cur x h hx)

theorem createLoop_error (env : Env) (hcf : env.createFails = true) :
    ∀ (parts : List String) (cands : List Int) (cur : Int),
      cur ∈ cands → chainFrontier env.folders cands parts = [] →
      createLoop env.folders env cur parts = .error () := by
  intro parts
  induction parts with
  | nil =>
      intro cands cur hcur hfr
      simp only [chainFrontier] at hfr
      rw [hfr] at hcur
      cases hcur
  | cons n rest ih =>
      intro cands cur hcur hfr
      simp only [chainFrontier] at hfr
      unfold createLoop
      cases hlk : lookupChildLast env.folders cur n with
      | none =>
          simp [hcf]
      | some cid =>
          have hmemc : cid ∈ childrenOf env.folders cur n := revHead_mem _ _ hlk
          exact ih (stepFrontier env.folders n cands) cid
            (mem_stepFrontier env.folders n cands cur cid hcur hmemc) hfr

theorem createLoop_nextId (snapshot : List RemoteFolder) :
    ∀ (parts : List String) (env : Env) (cur x : Int) (env' : Env),
      createLoop snapshot env cur parts = .ok (x, env') →
      env.nextId ≤ env'.nextId := by
  intro parts
  induction parts with
  | nil =>
      intro env cur x env' h
      simp only [createLoop, Except.ok.injEq, Prod.mk.injEq] at h
      rw [← h.2]
  | cons n rest ih =>
      intro env cur x env' h
      unfold createLoop at h
      cases hlk : lookupChildLast snapshot cur n with
      | some cid =>
          rw [hlk] at h
          exact ih env cid x env' h
      | none =>
          rw [hlk] at h
          by_cases hcf : env.createFails = true
          · rw [if_pos hcf] at h
            cases h
          · rw [if_neg hcf] at h
            have h2 : env.nextId + 1 ≤ env'.nextId := ih _ _ _ _ h
            omega

theorem findOrCreate_nextId (env : Env) (p : String) :
    env.nextId ≤ (findOrCreateFolderPath env p).2.nextId := by
  unfold findOrCreateFolderPath
  split
  · exact le_refl _
  · split
    · exact le_refl _
    next p0 rest heq =>
      cases hb : findOrCreateBody env (p0 :: rest) with
      | error e =>
          exact le_refl _
      | ok r =>
          unfold findOrCreateBody at hb
          cases hf : findFolderByPathParts env (p0 :: rest) with
          | some fid =>
              rw [hf] at hb
              simp only [Except.ok.injEq] at hb
              rw [← hb]
          | none =>
              rw [hf] at hb
              by_cases hq : env.folderQueryFails = true
              · rw [if_pos hq] at hb
                cases hb
              · rw [if_neg hq] at hb
                rcases r with ⟨x, env'⟩
                exact createLoop_nextId _ _ _ _ _ _ hb

theorem findOrCreate_qfail (env : Env) (p : String) (hq : env.folderQueryFails = true) :
    findOrCreateFolderPath env p = (CONFIG.defaultRootFolder, env) := by
  unfold findOrCreateFolderPath
  split
  · rfl
  · split
    · rfl
    next p0 rest heq =>
      have hbody : findOrCreateBody env (p0 :: rest) = .ok (CONFIG.defaultRootFolder, env) ∨
          findOrCreateBody env (p0 :: rest) = .error () := by
        cases hsr : skipRoot (p0 :: rest) with
        | nil =>
            left
            unfold findOrCreateBody findFolderByPathParts folderChainLookup
            rw [hsr]
        | cons q qs =>
            right
            unfold findOrCreateBody findFolderByPathParts folderChainLookup
            rw [hsr]
            simp [hq]
      rcases hbody with hb | hb <;> rw [hb]

/-! ## Claim C9 -/

/-- C9: inside `findOrCreateFolderPath`, every thrown query or
folder-creation step is caught and the fixed root folder id
(`CONFIG.defaultRootFolder = -15`) is returned with the cabinet unchanged:
(a) when folder queries throw; (b) when folder creation throws on a path
that does not fully exist; and consequently (c) a file created by `post`
under a throwing folder lookup is silently placed directly under the root
folder instead of the requested folder path. -/
theorem C9_folder_failure_root_fallback (env : Env) (folderPath : String) :
    (env.folderQueryFails = true →
      findOrCreateFolderPath env folderPath = (CONFIG.defaultRootFolder, env)) ∧
    (∀ p0 rest, env.folderQueryFails = false → env.createFails = true →
      skipRoot (splitSegs folderPath) = p0 :: rest →
      strToLower p0 ≠ "suitescripts" →
      findFolderByPathParts env (p0 :: rest) = none →
      findOrCreateFolderPath env folderPath = (CONFIG.defaultRootFolder, env)) ∧
    (∀ ctx fn p0 rest, env.folderQueryFails = true →
      validateRequest ctx = none → ctx.folder = none →
      parseFilePath (sanitizePath ctx.path) = (fn, folderPath) →
      skipRoot (splitSegs folderPath) = p0 :: rest →
      (post ctx env).1.action = some "create" ∧
      (post ctx env).2.files =
        env.files ++ [⟨env.nextId, fn, CONFIG.defaultRootFolder, ctx.content.getD ""⟩]) := by
  refine ⟨fun hq => findOrCreate_qfail env folderPath hq, ?_, ?_⟩
  · intro p0 rest hqf hcf hsk hp0 hnone
    have hne : folderPath ≠ "" := by
      intro h
      rw [h] at hsk
      rw [show skipRoot (splitSegs "") = ([] : List String) from rfl] at hsk
      cases hsk
    have hskip2 : skipRoot (p0 :: rest) = p0 :: rest := by
      simp [skipRoot, hp0]
    have h1 : folderChainLookup env (p0 :: rest) = none := by
      unfold findFolderByPathParts at hnone
      rw [hskip2] at hnone
      exact hnone
    have h2 : (chainFrontier env.folders
        (childrenOf env.folders CONFIG.defaultRootFolder p0) rest).head? = none := by
      have h1' : (if env.folderQueryFails = true then (none : Option Int)
          else (chainFrontier env.folders
            (childrenOf env.folders CONFIG.defaultRootFolder p0) rest).head?) = none := h1
      rw [if_neg (by rw [hqf]; exact Bool.false_ne_true)] at h1'
      exact h1'
    have h3 := headNone_nil _ h2
    have hfr : chainFrontier env.folders [CONFIG.defaultRootFolder] (p0 :: rest) = [] := by
      simp only [chainFrontier, stepFrontier, List.append_nil]
      exact h3
    have hcl := createLoop_error env hcf (p0 :: rest) [CONFIG.defaultRootFolder]
      CONFIG.defaultRootFolder (List.mem_singleton.mpr rfl) hfr
    have hbody : findOrCreateBody env (p0 :: rest) = .error () := by
      unfold findOrCreateBody
      rw [hnone, if_neg (by rw [hqf]; exact Bool.false_ne_true)]
      exact hcl
    unfold findOrCreateFolderPath
    rw [if_neg hne, hsk]
    show (match findOrCreateBody env (p0 :: rest) with
      | Except.ok r => r
      | Except.error _ => (CONFIG.defaultRootFolder, env)) = (CONFIG.defaultRootFolder, env)
    rw [hbody]
  · intro ctx fn p0 rest hq hv hfolder hparse hsk
    have hne : folderPath ≠ "" := by
      intro h
      rw [h] at hsk
      rw [show skipRoot (splitSegs "") = ([] : List String) from rfl] at hsk
      cases hsk
    have hf : findFolderByPath env folderPath = none := by
      unfold findFolderByPath findFolderByPathParts
      rw [if_neg hne, hsk]
      unfold folderChainLookup
      simp [hq]
    have hff : findFileByFullPath env folderPath fn = none := by
      unfold findFileByFullPath
      rw [hf]
    rw [post_of_valid ctx env hv]
    unfold postMain
    rw [hparse]
    rw [postUpsert_create ctx env fn folderPath hff hfolder]
    rw [findOrCreate_qfail env folderPath hq]
    exact ⟨rfl, rfl⟩

/-- C9 witness: with folder queries throwing, `findOrCreateFolderPath`
returns the root folder; with folder creation throwing on a missing path,
it also returns the root folder. -/
theorem C9_folder_failure_root_fallback_witness :
    findOrCreateFolderPath envFolderQF "SuiteScripts/app/sub" =
      (CONFIG.defaultRootFolder, envFolderQF) ∧
    findOrCreateFolderPath envCreateFail "newdir/sub" =
      (CONFIG.defaultRootFolder, envCreateFail) :=
  ⟨(C9_folder_failure_root_fallback envFolderQF "SuiteScripts/app/sub").1 rfl,
   (C9_folder_failure_root_fallback envCreateFail "newdir/sub").2.1 "newdir" ["sub"]
     rfl rfl (by decide) (by decide) (by decide)⟩

/-! ## Claim C10 -/

/-- C10: `findFileByFullPath` returns `none` both when no file with the
given (name, folder) pair exists and when the file-lookup query throws; in
the latter case `post` takes the create branch, so a transient lookup
failure on a path whose file already exists (here: `f`) produces a create
with a fresh file id different from the existing file's id, instead of an
identity-preserving update. -/
theorem C10_lookup_failure_creates_fresh (env : Env) (ctx : Ctx)
    (fn folderPath : String) (fid : Int) (f : RemoteFile)
    (hv : validateRequest ctx = none)
    (hparse : parseFilePath (sanitizePath ctx.path) = (fn, folderPath))
    (hfold : findFolderByPath env folderPath = some fid)
    (hfile : findFileRec env.files fn fid = some f)
    (hq : env.fileQueryFails = true)
    (hfolder : ctx.folder = none)
    (hfresh : ∀ g ∈ env.files, g.id < env.nextId) :
    findFileByFullPath env folderPath fn = none ∧
    (post ctx env).1.success = true ∧
    (post ctx env).1.action = some "create" ∧
    ∃ n : Int, (post ctx env).1.fileId = some n ∧ f.id ≠ n := by
  have hff : findFileByFullPath env folderPath fn = none := by
    unfold findFileByFullPath
    rw [hfold]
    simp [hq]
  have hpost : post ctx env =
      ({ success := true, error := none,
         fileId := some (fileSaveCreate (findOrCreateFolderPath env folderPath).2 fn
            (findOrCreateFolderPath env folderPath).1 (ctx.content.getD "")).1,
         action := some "create" },
       (fileSaveCreate (findOrCreateFolderPath env folderPath).2 fn
          (findOrCreateFolderPath env folderPath).1 (ctx.content.getD "")).2) := by
    rw [post_of_valid ctx env hv]
    unfold postMain
    rw [hparse]
    exact postUpsert_create ctx env fn folderPath hff hfolder
  refine ⟨hff, ?_, ?_, ?_⟩
  · rw [hpost]
  · rw [hpost]
  · rw [hpost]
    refine ⟨(findOrCreateFolderPath env folderPath).2.nextId, rfl, ?_⟩
    have h1 : f.id < env.nextId :=
      hfresh f (List.mem_of_find?_eq_some hfile)
    have h2 : env.nextId ≤ (findOrCreateFolderPath env folderPath).2.nextId :=
      findOrCreate_nextId env folderPath
    omega

/-- C10 witness: with the file-lookup query throwing, `/SuiteScripts/app/x.js`
— whose file already exists with id 500 — is not found and `post` answers
with action `create`. -/
theorem C10_lookup_failure_creates_fresh_witness :
    findFileByFullPath envQF "SuiteScripts/app" "x.js" = none ∧
    (post ctxC1 envQF).1.action = some "create" :=
  ⟨(C10_lookup_failure_creates_fresh envQF ctxC1 "x.js" "SuiteScripts/app" 100
      ⟨500, "x.js", 100, "old"⟩ (by decide) (by decide) (by decide) (by decide)
      rfl rfl (by decide)).1,
   (C10_lookup_failure_creates_fresh envQF ctxC1 "x.js" "SuiteScripts/app" 100
      ⟨500, "x.js", 100, "old"⟩ (by decide) (by decide) (by decide) (by decide)
      rfl rfl (by decide)).2.2.1⟩

/-! ## Claim C2 -/

/-- A burst of saves for one path, each arriving strictly before the
pending timer fires, keeps cancelling and re-arming the single timer; the
only upload attempt is at the last save time plus the delay. -/
theorem runSaves_burst (delay : Nat) (p : String) :
    ∀ (ts : List Nat) (prev : Nat), withinWindow delay prev ts = true →
      runSaves delay (ts.map (fun t => (t, p))) [(p, prev + delay)] =
        [(p, lastOf prev ts + delay)] := by
  intro ts
  induction ts with
  | nil => intro prev _; rfl
  | cons u us ih =>
      intro prev h
      simp only [withinWindow, Bool.and_eq_true, decide_eq_true_eq] at h
      obtain ⟨⟨h1, h2⟩, h3⟩ := h
      have e1 : List.filter (fun tm => decide (tm.2 ≤ u)) [(p, prev + delay)] =
          ([] : List (String × Nat)) := by
        simp [List.filter_cons, Nat.not_le.mpr h2]
      have e2 : List.filter (fun tm => decide (u < tm.2)) [(p, prev + delay)] =
          [(p, prev + delay)] := by
        simp [List.filter_cons, h2]
      have e3 : List.filter (fun tm => tm.1 != p) [(p, prev + delay)] =
          ([] : List (String × Nat)) := by
        simp [List.filter_cons]
      simp only [List.map_cons]
      rw [runSaves, e1, e2, e3]
      simp only [List.nil_append]
      exact ih u h3

/-- C2 (amended): debounce coalescing and timer cancellation hold — for
every physical path, N save events each arriving before the pending
debounce timer fires are coalesced into exactly one upload attempt, fired
at the last save time plus the debounce delay (each new save cancels and
restarts the pending timer for that path).  The non-overlap half of the
original claim is refuted by `C2_overlap_counterexample`: cancellation
only reaches timers that have not yet fired, so a save arriving after the
timer fired but before the asynchronous upload finishes starts a second,
overlapping in-flight upload. -/
theorem C2_debounce_coalescing (delay : Nat) (p : String) (t : Nat) (ts : List Nat)
    (h : withinWindow delay t ts = true) :
    uploadsOf delay ((t :: ts).map (fun u => (u, p))) = [(p, lastOf t ts + delay)] := by
  unfold uploadsOf
  simp only [List.map_cons]
  rw [runSaves]
  simp only [List.filter_nil, List.nil_append]
  exact runSaves_burst delay p ts t h

/-- C2 counterexample: with debounce delay 1, saves of the same path at
times 0 and 2 produce two upload attempts (at times 1 and 3) — the second
save arrives after the first timer fired, so nothing is cancelled — and
with an upload lasting 10 time units the two in-flight uploads for the
same path overlap, refuting "two InFlight network uploads for the same
physicalPath can never overlap". -/
theorem C2_overlap_counterexample :
    uploadsOf 1 [(0, "a"), (2, "a")] = [("a", 1), ("a", 3)] ∧
    hasOverlap 10 (uploadsOf 1 [(0, "a"), (2, "a")]) = true := by
  exact ⟨by decide, by decide⟩

/-- C2 witness: three saves at 0, 500 and 900 with a 1000 ms debounce
produce exactly one upload attempt, at 1900. -/
theorem C2_debounce_coalescing_witness :
    withinWindow 1000 0 [500, 900] = true ∧
    uploadsOf 1000 ([0, 500, 900].map (fun u => (u, "a"))) = [("a", 1900)] :=
  ⟨by decide, C2_debounce_coalescing 1000 "a" 0 [500, 900] (by decide)⟩

end AutoUpload
